import Mathlib

/-!
Verification of the DialFact-to-MCQA conversion pipeline.

This development shallowly embeds the two Python source files
(`convertdata.py` and `subsetdata.py`) of the DialFact_mcqa repository.

Modelling conventions:
* The persistent URL cache (a Python `dict` pickled to disk) is an
  association list `Cache` with overwrite-on-insert semantics; disk
  persistence is out of scope of the embedded operations.
* Network retrieval plus HTML extraction (`requests` + `BeautifulSoup`)
  is an oracle `net : String → Option String`: `none` models any raised
  exception (network error, non-success status, timeout), `some s`
  models a successful retrieval whose extracted paragraph text is `s`
  (before the 5000-character truncation performed by the code).
* `time.sleep(1)` is modelled by an explicit `delay` counter (number of
  1-second sleeps performed).
* Python `dict` records are modelled by structures; keys accessed via
  `.get` (which may be absent) are `Option` fields, and the operations
  that would raise `KeyError` on direct subscripts return `Option`
  (`none` models the raised exception).
* `random.shuffle` under `random.seed` is external library code; it is
  modelled (per the spec's contract) as a deterministic pseudorandom
  permutation of the input list.
-/

/-- Python string slicing `s[:n]`: the first `n` characters of `s`
(all of `s` when it is shorter). -/
def strTake (s : String) (n : Nat) : String := ⟨s.data.take n⟩

/-- The in-memory URL cache `self.url_cache`: URL → extracted content. -/
abbrev Cache := List (String × String)

/-- Lookup in the cache (`url in self.url_cache` / `self.url_cache[url]`). -/
def cacheFind : Cache → String → Option String
  | [], _ => none
  | (k, v) :: rest, u => if k = u then some v else cacheFind rest u

/-- Store into the cache (`self.url_cache[url] = content`), overwriting. -/
def cacheInsert : Cache → String → String → Cache
  | [], u, v => [(u, v)]
  | (k, w) :: rest, u, v =>
    if k = u then (u, v) :: rest else (k, w) :: cacheInsert rest u v

/-- Result of one call to `fetch_wikipedia_content`: the returned string,
the cache state after the call, and whether a network request was
dispatched. -/
structure FetchOut where
  content : String
  cache : Cache
  fetched : Bool
deriving Repr, DecidableEq

/-- `DialFact2MCQAConverter.fetch_wikipedia_content` (convertdata.py,
lines 53-93): answer from the cache on a hit; otherwise fetch, truncate
to 5000 characters, cache and return; on any exception cache and return
the empty string. -/
def fetch_wikipedia_content (net : String → Option String) (cache : Cache)
    (url : String) : FetchOut :=
  match cacheFind cache url with
  | some v => ⟨v, cache, false⟩
  | none =>
    match net url with
    | some content =>
      let full_content := strTake content 5000
      ⟨full_content, cacheInsert cache url full_content, true⟩
    | none => ⟨"", cacheInsert cache url "", true⟩

/-- One entry of `search_results` (convertdata.py, lines 128-134). -/
structure SearchResult where
  page_name : String
  page_url : String
  page_snippet : String
  page_result : String
  page_last_modified : String
deriving Repr, DecidableEq

/-- Result of processing one element of `evidence_list` inside
`create_claim_verification_mcqa` (convertdata.py, lines 115-135):
the search result if the evidence was usable (`len(evidence) >= 3`),
the cache afterwards, and the number of 1-second sleeps performed. -/
structure EnrichOut where
  result : Option SearchResult
  cache : Cache
  delay : Nat
deriving Repr, DecidableEq

/-- The body of the `for i, evidence in enumerate(item["evidence_list"])`
loop of `create_claim_verification_mcqa` (convertdata.py, lines 115-135),
for a single evidence triple. -/
def enrich_evidence (net : String → Option String) (cache : Cache)
    (ev : List String) : EnrichOut :=
  if 3 ≤ ev.length then
    let url := ev.getD 1 ""
    if url ≠ "" then
      let is_cached := (cacheFind cache url).isSome
      let fo := fetch_wikipedia_content net cache url
      let full_content := fo.content
      let delay := if is_cached = false ∧ full_content ≠ "" then 1 else 0
      ⟨some ⟨ev.getD 0 "", url, ev.getD 2 "",
        if full_content ≠ "" then full_content else ev.getD 2 "", ""⟩,
        fo.cache, delay⟩
    else
      ⟨some ⟨ev.getD 0 "", url, ev.getD 2 "", ev.getD 2 "", ""⟩, cache, 0⟩
  else ⟨none, cache, 0⟩

/-- One DialFact source record, as consumed by the converter. Fields the
code reads with a plain subscript (`item["context"]`, `item["response"]`,
`item["response_label"]`) are still `Option`s here: `none` models an
absent key, whose subscript raises `KeyError` (caught per item by
`convert_to_mcqa`). `type_label` and `evidence_list` are read via
`.get`, which yields `None` when absent. -/
structure DFItem where
  context : Option (List String)
  response : Option String
  response_label : Option String
  type_label : Option String
  evidence_list : Option (List (List String))
deriving Repr, DecidableEq

/-- One MCQA question item (convertdata.py, lines 137-145). -/
structure MCQAItem where
  id : Nat
  question : String
  correct_answer : String
  options : List String
  context : String
  claim : String
  search_results : List SearchResult
deriving Repr, DecidableEq

/-- The question template of convertdata.py, line 100. -/
def mkQuestion (resp : String) : String :=
  "Given the conversation context, evaluate this claim: \x27" ++ resp ++
    "\x27\n\nWhat is the verification status?\nA. Supports\nB. Refutes" ++
    "\nC. Not Enough Information"

/-- The answer-letter mapping of convertdata.py, lines 105-110:
SUPPORTS ↦ A, REFUTES ↦ B, everything else ↦ C. -/
def mapCorrectOption (label : String) : String :=
  if label = "SUPPORTS" then "A" else if label = "REFUTES" then "B" else "C"

/-- State threaded through the evidence loop of
`create_claim_verification_mcqa`: accumulated `search_results`, the
cache, and the total number of 1-second sleeps so far. -/
structure EnrichState where
  results : List SearchResult
  cache : Cache
  delay : Nat
deriving Repr, DecidableEq

/-- The whole evidence loop (convertdata.py, lines 113-135), folding
`enrich_evidence` over `item["evidence_list"]` (treated as empty when
absent or empty, which the code's truthiness test and loop make
equivalent). -/
def enrichAll (net : String → Option String) (cache : Cache)
    (evs : List (List String)) : EnrichState :=
  evs.foldl
    (fun st ev =>
      let eo := enrich_evidence net st.cache ev
      { results := match eo.result with
          | some sr => st.results ++ [sr]
          | none => st.results
        cache := eo.cache
        delay := st.delay + eo.delay })
    ⟨[], cache, 0⟩

/-- Result of a successful `create_claim_verification_mcqa` call. -/
structure CreateOut where
  item : MCQAItem
  cache : Cache
  delay : Nat
deriving Repr, DecidableEq

/-- `DialFact2MCQAConverter.create_claim_verification_mcqa`
(convertdata.py, lines 95-147). Returns `none` when the record lacks one
of the `context` / `response` / `response_label` keys (the `KeyError`
raised before any fetch happens, caught by the caller). -/
def create_claim_verification_mcqa (net : String → Option String)
    (cache : Cache) (item : DFItem) (question_id : Nat) :
    Option CreateOut :=
  match item.context, item.response, item.response_label with
  | some ctx, some resp, some label =>
    let context_str := String.intercalate " " ctx
    let question := mkQuestion resp
    let correct_option := mapCorrectOption label
    let es := enrichAll net cache (item.evidence_list.getD [])
    some ⟨⟨question_id, question, correct_option, ["A", "B", "C"],
      context_str, resp, es.results⟩, es.cache, es.delay⟩
  | _, _, _ => none

/-- The full emitted dataset document. -/
structure MCQADataset where
  name : String
  description : String
  version : String
  total_samples : Nat
  calibration_samples : Nat
  test_samples : Nat
  calibration : List MCQAItem
  test : List MCQAItem
deriving Repr, DecidableEq

/-- State threaded through the main loop of `convert_to_mcqa`
(convertdata.py, lines 170-201). -/
structure ConvState where
  cache : Cache
  question_id : Nat
  calibration : List MCQAItem
  test : List MCQAItem
  processed_count : Nat
deriving Repr, DecidableEq

/-- One iteration of the `for i, item in enumerate(all_data)` loop of
`convert_to_mcqa` (convertdata.py, lines 174-201): skip non-factual
records; on a successful conversion increment the id and append to
`calibration` while it holds fewer than 5 items, else to `test`; on a
per-item exception leave the state as it was (the `KeyError` fires
before any mutation). -/
def convStep (net : String → Option String) (s : ConvState)
    (item : DFItem) : ConvState :=
  if item.type_label = some "factual" then
    let s1 : ConvState := { s with processed_count := s.processed_count + 1 }
    match create_claim_verification_mcqa net s1.cache item s1.question_id with
    | some co =>
      if s1.calibration.length < 5 then
        { s1 with
          cache := co.cache
          question_id := s1.question_id + 1
          calibration := s1.calibration ++ [co.item] }
      else
        { s1 with
          cache := co.cache
          question_id := s1.question_id + 1
          test := s1.test ++ [co.item] }
    | none => s1
  else s

/-- `DialFact2MCQAConverter.convert_to_mcqa` (convertdata.py, lines
149-223), with file I/O and periodic cache saving (which do not affect
the produced document) out of scope: fold the loop body over the
concatenated input records and recompute the three count fields from the
final bucket lengths. -/
def convert_to_mcqa (net : String → Option String) (cache0 : Cache)
    (all_data : List DFItem) : MCQADataset :=
  let fin := all_data.foldl (convStep net) ⟨cache0, 1, [], [], 0⟩
  { name := "DialFact-MCQA"
    description := "DialFact dataset converted to Claim Verification MCQA format for evaluating RAG systems"
    version := "1.0"
    total_samples := fin.calibration.length + fin.test.length
    calibration_samples := fin.calibration.length
    test_samples := fin.test.length
    calibration := fin.calibration
    test := fin.test }

/-- A linear congruential step, the pseudorandom number source of the
shuffle model. -/
def lcgNext (s : Nat) : Nat := (s * 1103515245 + 12345) % 2147483648

/-- Selection shuffle: repeatedly pick the element at a pseudorandom
index of the remaining list (structural fuel equals the initial
length, so the fuel never runs out). -/
def shuffleAux {α : Type} : Nat → Nat → List α → List α
  | 0, _, l => l
  | _ + 1, _, [] => []
  | fuel + 1, s, x :: xs =>
    let i := s % (x :: xs).length
    let y := (x :: xs).get ⟨i, Nat.mod_lt _ (Nat.succ_pos _)⟩
    y :: shuffleAux fuel (lcgNext s) ((x :: xs).take i ++ (x :: xs).drop (i + 1))

/-- Modelled from the spec: `random.shuffle` preceded by `random.seed`
(subsetdata.py, lines 20 and 92) — external library code, specified as
"a pseudorandom shuffle seeded deterministically (fixed seed value
supplied by the caller)" so that repeated runs with the same seed and
input produce an identical split. Modelled as a deterministic
pseudorandom permutation of the input list. -/
def shuffleModel {α : Type} (seed : Nat) (l : List α) : List α :=
  shuffleAux l.length (lcgNext seed) l

/-- The in-place renumbering pass of subsetdata.py, lines 34-35:
`for i, item in enumerate(new_calibration + new_test, 1): item["id"] = i`,
expressed functionally on the concatenated list. -/
def renumberFrom : Nat → List MCQAItem → List MCQAItem
  | _, [] => []
  | k, x :: xs => { x with id := k } :: renumberFrom (k + 1) xs

/-- `create_subset_dataset` (subsetdata.py, lines 4-82), with file I/O
and the printed statistics out of scope. The `seed` argument models the
`random.seed(42)` call performed by `main` before the shuffle. The
mutation of shared items by the renumbering pass is expressed by
renumbering the concatenation and re-splitting it at the calibration
length. -/
def create_subset_dataset (seed : Nat) (dataset : MCQADataset)
    (calib_size test_size : Nat) : MCQADataset :=
  let all_samples := shuffleModel seed (dataset.calibration ++ dataset.test)
  let required_total := calib_size + test_size
  let sizes : Nat × Nat :=
    if all_samples.length < required_total then
      let c := min calib_size all_samples.length
      (c, min test_size (all_samples.length - c))
    else (calib_size, test_size)
  let new_calibration := all_samples.take sizes.1
  let new_test := (all_samples.drop sizes.1).take sizes.2
  let renum := renumberFrom 1 (new_calibration ++ new_test)
  { name := "DialFact-MCQA-Subset"
    description := "Subset of DialFact MCQA dataset with " ++
      toString sizes.1 ++ " calibration and " ++ toString sizes.2 ++
      " test samples"
    version := "1.0"
    total_samples := new_calibration.length + new_test.length
    calibration_samples := new_calibration.length
    test_samples := new_test.length
    calibration := renum.take new_calibration.length
    test := renum.drop new_calibration.length }

/-- A small concrete MCQA item used to evaluate the theorems below on
closed inputs. -/
def sampleItem (n : Nat) : MCQAItem :=
  ⟨n, "q", "A", ["A", "B", "C"], "x", "c", []⟩

/-- A small concrete dataset document used to evaluate the theorems
below on closed inputs. -/
def sampleDataset : MCQADataset :=
  ⟨"n", "d", "1.0", 2, 1, 1, [sampleItem 1], [sampleItem 2]⟩

/-- Invariant maintained by the converter loop: the next question id is
one past the number of emitted items, the calibration bucket holds
exactly the first `min 5` of the emitted items, and the ids across
`calibration ++ test` are exactly `1, 2, ...` in emission order. -/
def ConvInv (s : ConvState) : Prop :=
  s.question_id = s.calibration.length + s.test.length + 1
  ∧ s.calibration.length = min 5 (s.calibration.length + s.test.length)
  ∧ (s.calibration ++ s.test).map (fun x => x.id)
      = List.range' 1 (s.calibration.length + s.test.length)

/-! ### Helper lemmas about the cache and the fetch operation -/

theorem cacheFind_cacheInsert (c : Cache) (u v : String) :
    cacheFind (cacheInsert c u v) u = some v := by
  induction c with
  | nil => simp [cacheInsert, cacheFind]
  | cons kv rest ih =>
    obtain ⟨k, w⟩ := kv
    by_cases h : k = u
    · simp [cacheInsert, cacheFind, h]
    · simp [cacheInsert, cacheFind, h, ih]

theorem fetch_hit (net : String → Option String) (cache : Cache)
    (url v : String) (h : cacheFind cache url = some v) :
    fetch_wikipedia_content net cache url = ⟨v, cache, false⟩ := by
  unfold fetch_wikipedia_content
  rw [h]

theorem fetch_miss_fail (net : String → Option String) (cache : Cache)
    (url : String) (hmiss : cacheFind cache url = none)
    (hfail : net url = none) :
    fetch_wikipedia_content net cache url
      = ⟨"", cacheInsert cache url "", true⟩ := by
  unfold fetch_wikipedia_content
  rw [hmiss, hfail]

theorem fetch_miss_ok (net : String → Option String) (cache : Cache)
    (url s : String) (hmiss : cacheFind cache url = none)
    (hok : net url = some s) :
    fetch_wikipedia_content net cache url
      = ⟨strTake s 5000, cacheInsert cache url (strTake s 5000), true⟩ := by
  unfold fetch_wikipedia_content
  rw [hmiss, hok]

theorem fetch_find_self (net : String → Option String) (cache : Cache)
    (url : String) :
    cacheFind (fetch_wikipedia_content net cache url).cache url
      = some (fetch_wikipedia_content net cache url).content := by
  rcases h : cacheFind cache url with _ | v
  · rcases h2 : net url with _ | content
    · rw [fetch_miss_fail net cache url h h2]
      exact cacheFind_cacheInsert ..
    · rw [fetch_miss_ok net cache url content h h2]
      exact cacheFind_cacheInsert ..
  · rw [fetch_hit net cache url v h]
    exact h

theorem create_id (net : String → Option String) (cache : Cache)
    (item : DFItem) (qid : Nat) (co : CreateOut)
    (h : create_claim_verification_mcqa net cache item qid = some co) :
    co.item.id = qid := by
  rcases hc : item.context with _ | ctx <;>
    rcases hr : item.response with _ | resp <;>
    rcases hl : item.response_label with _ | label <;>
    simp only [create_claim_verification_mcqa, hc, hr, hl,
      reduceCtorEq] at h
  obtain rfl := Option.some.inj h
  rfl

theorem convStep_inv (net : String → Option String) (s : ConvState)
    (item : DFItem) (h : ConvInv s) : ConvInv (convStep net s item) := by
  obtain ⟨h1, h2, h3⟩ := h
  by_cases ht : item.type_label = some "factual"
  · unfold convStep
    rw [if_pos ht]
    dsimp only
    rcases hcr : create_claim_verification_mcqa net s.cache item
        s.question_id with _ | co
    · exact ⟨h1, h2, h3⟩
    · dsimp only
      have hid := create_id net s.cache item s.question_id co hcr
      by_cases hlt : s.calibration.length < 5
      · rw [if_pos hlt]
        have htest : s.test = [] := by
          rcases hts : s.test with _ | ⟨t, ts⟩
          · rfl
          · rw [hts] at h2
            simp only [List.length_cons] at h2
            omega
        rw [htest] at h3 ⊢
        simp only [List.append_nil, List.length_append, List.length_nil,
          List.length_cons] at h1 h2 h3 ⊢
        refine ⟨by simp; omega, by simp; omega, ?_⟩
        simp only [List.map_append, List.map_cons, List.map_nil, h3, hid,
          List.length_append, List.length_cons, List.length_nil]
        rw [List.range'_concat]
        simp
        omega
      · rw [if_neg hlt]
        refine ⟨by simp; omega, by simp; omega, ?_⟩
        simp only [List.length_append, List.length_cons, List.length_nil]
        rw [← List.append_assoc]
        simp only [List.map_append, List.map_cons, List.map_nil, h3, hid]
        have hn : s.calibration.length + (s.test.length + (0 + 1))
            = (s.calibration.length + s.test.length) + 1 := by omega
        have h4 : s.question_id
            = 1 + 1 * (s.calibration.length + s.test.length) := by omega
        rw [hn, List.range'_concat, h4]
  · unfold convStep
    rw [if_neg ht]
    exact ⟨h1, h2, h3⟩

theorem foldl_convStep_inv (net : String → Option String) :
    ∀ (data : List DFItem) (s : ConvState), ConvInv s →
      ConvInv (data.foldl (convStep net) s)
  | [], _, h => h
  | d :: ds, s, h =>
    foldl_convStep_inv net ds (convStep net s d) (convStep_inv net s d h)

/-! ### Helper lemmas about the Sampler -/

theorem renumberFrom_length (k : Nat) (l : List MCQAItem) :
    (renumberFrom k l).length = l.length := by
  induction l generalizing k with
  | nil => rfl
  | cons x xs ih => simp [renumberFrom, ih]

theorem renumberFrom_map_id (k : Nat) (l : List MCQAItem) :
    (renumberFrom k l).map (fun x => x.id) = List.range' k l.length := by
  induction l generalizing k with
  | nil => rfl
  | cons x xs ih => simp [renumberFrom, ih, List.range'_succ]

theorem renumberFrom_mem : ∀ (k : Nat) (l : List MCQAItem) (x : MCQAItem),
    x ∈ renumberFrom k l →
    ∃ y ∈ l, x.question = y.question
      ∧ x.correct_answer = y.correct_answer ∧ x.options = y.options
      ∧ x.context = y.context ∧ x.claim = y.claim
      ∧ x.search_results = y.search_results
  | _, [], _, hx => by cases hx
  | k, y :: ys, x, hx => by
    rcases List.mem_cons.mp hx with hx | hx
    · subst hx
      exact ⟨y, List.mem_cons_self .., rfl, rfl, rfl, rfl, rfl, rfl⟩
    · obtain ⟨z, hz, hf⟩ := renumberFrom_mem (k + 1) ys x hx
      exact ⟨z, List.mem_cons_of_mem y hz, hf⟩

theorem shuffleAux_length {α : Type} (fuel s : Nat) (l : List α) :
    (shuffleAux fuel s l).length = l.length := by
  induction fuel generalizing s l with
  | zero => rfl
  | succ fuel ih =>
    rcases l with _ | ⟨x, xs⟩
    · rfl
    · simp only [shuffleAux, List.length_cons, ih, List.length_append,
        List.length_take, List.length_drop]
      have : s % (xs.length + 1) < xs.length + 1 :=
        Nat.mod_lt _ (Nat.succ_pos _)
      omega

theorem shuffleModel_length {α : Type} (seed : Nat) (l : List α) :
    (shuffleModel seed l).length = l.length :=
  shuffleAux_length l.length (lcgNext seed) l

theorem shuffleAux_perm {α : Type} (fuel s : Nat) (l : List α) :
    List.Perm (shuffleAux fuel s l) l := by
  induction fuel generalizing s l with
  | zero => exact List.Perm.refl l
  | succ fuel ih =>
    rcases l with _ | ⟨x, xs⟩
    · exact List.Perm.refl []
    · refine List.Perm.trans
        (List.Perm.cons _ (ih (lcgNext s)
          ((x :: xs).take (s % (x :: xs).length)
            ++ (x :: xs).drop (s % (x :: xs).length + 1)))) ?_
      have hlt : s % (x :: xs).length < (x :: xs).length :=
        Nat.mod_lt _ (Nat.succ_pos _)
      have hsplit : (x :: xs)
          = (x :: xs).take (s % (x :: xs).length)
            ++ (x :: xs).get ⟨s % (x :: xs).length, hlt⟩
              :: (x :: xs).drop (s % (x :: xs).length + 1) := by
        rw [List.get_eq_getElem, ← List.drop_eq_getElem_cons hlt,
          List.take_append_drop]
      conv_rhs => rw [hsplit]
      exact List.perm_middle.symm

theorem shuffleModel_perm {α : Type} (seed : Nat) (l : List α) :
    List.Perm (shuffleModel seed l) l :=
  shuffleAux_perm l.length (lcgNext seed) l

/-! ### Claims about the Enricher and the cache -/

/-- Claim C1: for every URL, calling the fetch operation twice with the
same URL performs at most one network fetch — the second call is
answered from the cache (`fetched = false`), leaves the cache unchanged,
and returns exactly the content of the first call, including when the
first call cached the empty string after a failed or empty fetch. -/
theorem fetch_cache_idempotent (net : String → Option String)
    (cache : Cache) (url : String) :
    (fetch_wikipedia_content net
        (fetch_wikipedia_content net cache url).cache url).content
      = (fetch_wikipedia_content net cache url).content
    ∧ (fetch_wikipedia_content net
        (fetch_wikipedia_content net cache url).cache url).fetched = false
    ∧ (fetch_wikipedia_content net
        (fetch_wikipedia_content net cache url).cache url).cache
      = (fetch_wikipedia_content net cache url).cache := by
  rw [fetch_hit net _ url _ (fetch_find_self net cache url)]
  exact ⟨rfl, rfl, rfl⟩

/-- Claim C10: after every call to the fetch operation with URL `u`,
`u` is a key of the cache and the returned string is the value stored
under `u`; a call that finds `u` already cached leaves the cache map
entirely unchanged. -/
theorem fetch_cache_postcondition (net : String → Option String)
    (cache : Cache) (url : String) :
    cacheFind (fetch_wikipedia_content net cache url).cache url
      = some (fetch_wikipedia_content net cache url).content
    ∧ ((cacheFind cache url).isSome = true →
        (fetch_wikipedia_content net cache url).cache = cache) := by
  refine ⟨fetch_find_self net cache url, fun h => ?_⟩
  rcases Option.isSome_iff_exists.mp h with ⟨v, hv⟩
  rw [fetch_hit net cache url v hv]

/-- Witness for `fetch_cache_postcondition` at a concrete cached URL. -/
theorem fetch_cache_postcondition_witness :
    (cacheFind ([("u", "v")] : Cache) "u").isSome = true
    ∧ cacheFind
        (fetch_wikipedia_content (fun _ => none) [("u", "v")] "u").cache "u"
        = some (fetch_wikipedia_content (fun _ => none) [("u", "v")] "u").content
    ∧ (fetch_wikipedia_content (fun _ => none) [("u", "v")] "u").cache
        = [("u", "v")] :=
  ⟨by decide, (fetch_cache_postcondition (fun _ => none) [("u", "v")] "u").1,
    (fetch_cache_postcondition (fun _ => none) [("u", "v")] "u").2 (by decide)⟩

/-- Claim C9: a fetch that fails (any exception: network error,
non-success status, timeout — modelled by `net url = none`) or extracts
no usable content (`net url = some ""`) never raises to the caller: the
outcome is the empty string, the empty string is written to the cache,
and the item's `page_result` falls back to the original snippet. -/
theorem fetch_failure_semantics (net : String → Option String)
    (cache : Cache) (ev : List String) (hlen : 3 ≤ ev.length)
    (hurl : ev.getD 1 "" ≠ "")
    (hmiss : cacheFind cache (ev.getD 1 "") = none)
    (hfail : net (ev.getD 1 "") = none ∨ net (ev.getD 1 "") = some "") :
    (fetch_wikipedia_content net cache (ev.getD 1 "")).content = ""
    ∧ cacheFind (fetch_wikipedia_content net cache (ev.getD 1 "")).cache
        (ev.getD 1 "") = some ""
    ∧ (enrich_evidence net cache ev).result
        = some ⟨ev.getD 0 "", ev.getD 1 "", ev.getD 2 "",
            ev.getD 2 "", ""⟩ := by
  have hfe : fetch_wikipedia_content net cache (ev.getD 1 "")
      = ⟨"", cacheInsert cache (ev.getD 1 "") "", true⟩ := by
    rcases hfail with hfail | hfail
    · exact fetch_miss_fail net cache _ hmiss hfail
    · rw [fetch_miss_ok net cache _ "" hmiss hfail]
      rfl
  refine ⟨by rw [hfe], by rw [hfe]; exact cacheFind_cacheInsert .., ?_⟩
  simp only [enrich_evidence, if_pos hlen, if_pos hurl, hfe]
  simp

/-- Witness for `fetch_failure_semantics`: a usable evidence triple with
an uncached URL whose fetch raises. -/
theorem fetch_failure_semantics_witness :
    3 ≤ (["n", "u", "s"] : List String).length
    ∧ (["n", "u", "s"] : List String).getD 1 "" ≠ ""
    ∧ cacheFind ([] : Cache) ((["n", "u", "s"] : List String).getD 1 "") = none
    ∧ (fetch_wikipedia_content (fun _ => none) ([] : Cache)
        ((["n", "u", "s"] : List String).getD 1 "")).content = ""
    ∧ (enrich_evidence (fun _ => none) ([] : Cache) ["n", "u", "s"]).result
        = some ⟨"n", "u", "s", "s", ""⟩ :=
  ⟨by decide, by decide, rfl,
    (fetch_failure_semantics (fun _ => none) [] ["n", "u", "s"] (by decide)
      (by decide) rfl (Or.inl rfl)).1,
    (fetch_failure_semantics (fun _ => none) [] ["n", "u", "s"] (by decide)
      (by decide) rfl (Or.inl rfl)).2.2⟩

/-- Counterexample to claim C3: the evidence `["n", "u", "s"]` has the
uncached URL `"u"`, its fetch is dispatched over the network
(`fetched = true`) and fails, yet no delay is imposed (`delay = 0`),
contradicting the claim that every dispatched miss is followed by the
fixed 1-unit delay regardless of the fetch outcome. -/
theorem enricher_delay_claim_cex :
    cacheFind ([] : Cache) "u" = none
    ∧ (fetch_wikipedia_content (fun _ => none) ([] : Cache) "u").fetched = true
    ∧ (enrich_evidence (fun _ => none) ([] : Cache) ["n", "u", "s"]).delay
        = 0 :=
  ⟨rfl, rfl, rfl⟩

/-- Claim C3 as amended: the 1-unit delay is imposed exactly for a
usable evidence reference whose URL is non-empty, absent from the cache
at call time, and whose fetch returned non-empty content; no delay is
imposed for cache hits, empty URLs, unusable references, or dispatched
misses whose fetch failed or returned empty content. -/
theorem enrich_delay_characterization (net : String → Option String)
    (cache : Cache) (ev : List String) :
    (enrich_evidence net cache ev).delay
      = if 3 ≤ ev.length ∧ ev.getD 1 "" ≠ ""
            ∧ cacheFind cache (ev.getD 1 "") = none
            ∧ (fetch_wikipedia_content net cache (ev.getD 1 "")).content ≠ ""
        then 1 else 0 := by
  rcases hc : cacheFind cache (ev.getD 1 "") with _ | v
  · simp [enrich_evidence, hc, apply_ite EnrichOut.delay]
    split_ifs <;> simp_all
  · simp [enrich_evidence, hc, apply_ite EnrichOut.delay]
    intro _ _ hnone
    simp only [List.getD_eq_getElem?_getD] at hc
    rw [hc] at hnone
    exact absurd hnone (by simp)

/-! ### Claims about the Converter -/

/-- Claim C6: for every converted record, `correct_answer` is `"A"` if
the response label equals `"SUPPORTS"`, `"B"` if it equals `"REFUTES"`,
and `"C"` for every other label value. -/
theorem correct_answer_mapping (net : String → Option String)
    (cache : Cache) (item : DFItem) (question_id : Nat) (co : CreateOut)
    (h : create_claim_verification_mcqa net cache item question_id
          = some co) :
    (item.response_label = some "SUPPORTS" →
      co.item.correct_answer = "A")
    ∧ (item.response_label = some "REFUTES" →
      co.item.correct_answer = "B")
    ∧ (∀ l, item.response_label = some l → l ≠ "SUPPORTS" →
      l ≠ "REFUTES" → co.item.correct_answer = "C") := by
  rcases hc : item.context with _ | ctx <;>
    rcases hr : item.response with _ | resp <;>
    rcases hl : item.response_label with _ | label <;>
    simp only [create_claim_verification_mcqa, hc, hr, hl,
      reduceCtorEq] at h
  obtain rfl := Option.some.inj h
  refine ⟨fun heq => ?_, fun heq => ?_, fun l hleq hne1 hne2 => ?_⟩
  · obtain rfl := Option.some.inj heq
    rfl
  · obtain rfl := Option.some.inj heq
    rfl
  · obtain rfl := Option.some.inj hleq
    simp [mapCorrectOption, hne1, hne2]

/-- Witness for `correct_answer_mapping` at a concrete record whose
label is `"SUPPORTS"`. -/
theorem correct_answer_mapping_witness :
    create_claim_verification_mcqa (fun _ => none) []
        ⟨some ["a"], some "c", some "SUPPORTS", some "factual", none⟩ 1
      = some ⟨⟨1, mkQuestion "c", "A", ["A", "B", "C"], "a", "c", []⟩, [], 0⟩
    ∧ (⟨⟨1, mkQuestion "c", "A", ["A", "B", "C"], "a", "c", []⟩, [], 0⟩ :
        CreateOut).item.correct_answer = "A" :=
  ⟨by decide,
    (correct_answer_mapping (fun _ => none) []
      ⟨some ["a"], some "c", some "SUPPORTS", some "factual", none⟩ 1
      ⟨⟨1, mkQuestion "c", "A", ["A", "B", "C"], "a", "c", []⟩, [], 0⟩
      (by decide)).1 rfl⟩

/-- Claim C2: among the `N` successfully converted items, the first
`min 5 N` land in the calibration bucket and all subsequent ones in the
test bucket, and the ids assigned across the whole conversion are
exactly `1, 2, 3, ...` in emission order (`List.range' 1 N`),
incremented once per successfully converted item regardless of
bucket. -/
theorem converter_prefix_split_and_ids (net : String → Option String)
    (cache0 : Cache) (data : List DFItem) :
    (convert_to_mcqa net cache0 data).calibration.length
      = min 5 ((convert_to_mcqa net cache0 data).calibration.length
          + (convert_to_mcqa net cache0 data).test.length)
    ∧ ((convert_to_mcqa net cache0 data).calibration
        ++ (convert_to_mcqa net cache0 data).test).map (fun x => x.id)
      = List.range' 1 ((convert_to_mcqa net cache0 data).calibration.length
          + (convert_to_mcqa net cache0 data).test.length) := by
  have h := foldl_convStep_inv net data ⟨cache0, 1, [], [], 0⟩
    ⟨rfl, by simp, rfl⟩
  exact ⟨h.2.1, h.2.2⟩

/-- Claim C5: every dataset document emitted by the Converter or the
Sampler satisfies `total_samples = calibration_samples + test_samples`,
with both counts recomputed from the final lengths of the emitted
buckets (never carried over from any prior or input value — the input
dataset's count fields are universally quantified here and do not
constrain the output). -/
theorem emitted_counts_recomputed (net : String → Option String)
    (cache0 : Cache) (data : List DFItem) (seed : Nat)
    (ds : MCQADataset) (calib_size test_size : Nat) :
    (convert_to_mcqa net cache0 data).total_samples
      = (convert_to_mcqa net cache0 data).calibration_samples
        + (convert_to_mcqa net cache0 data).test_samples
    ∧ (convert_to_mcqa net cache0 data).calibration_samples
      = (convert_to_mcqa net cache0 data).calibration.length
    ∧ (convert_to_mcqa net cache0 data).test_samples
      = (convert_to_mcqa net cache0 data).test.length
    ∧ (create_subset_dataset seed ds calib_size test_size).total_samples
      = (create_subset_dataset seed ds calib_size test_size).calibration_samples
        + (create_subset_dataset seed ds calib_size test_size).test_samples
    ∧ (create_subset_dataset seed ds calib_size test_size).calibration_samples
      = (create_subset_dataset seed ds calib_size test_size).calibration.length
    ∧ (create_subset_dataset seed ds calib_size test_size).test_samples
      = (create_subset_dataset seed ds calib_size test_size).test.length := by
  refine ⟨rfl, rfl, rfl, rfl, ?_, ?_⟩ <;>
    simp [create_subset_dataset, renumberFrom_length, List.length_take,
      List.length_drop, List.length_append]

/-! ### Claims about the Sampler -/

/-- Claim C4: when the requested sizes exceed the available `N` items,
the Sampler raises no error and pads nothing: it clamps `calib_size` to
`min calib_size N` and `test_size` to `min test_size (N - clamped)`,
and the output counts sum to exactly `N`. -/
theorem subset_clamping (seed : Nat) (d : MCQADataset)
    (calib_size test_size : Nat)
    (h : d.calibration.length + d.test.length < calib_size + test_size) :
    (create_subset_dataset seed d calib_size test_size).calibration_samples
        + (create_subset_dataset seed d calib_size test_size).test_samples
      = d.calibration.length + d.test.length
    ∧ (create_subset_dataset seed d calib_size test_size).calibration_samples
      = min calib_size (d.calibration.length + d.test.length)
    ∧ (create_subset_dataset seed d calib_size test_size).test_samples
      = min test_size (d.calibration.length + d.test.length
          - min calib_size (d.calibration.length + d.test.length)) := by
  have hlen : (shuffleModel seed (d.calibration ++ d.test)).length
      = d.calibration.length + d.test.length := by
    rw [shuffleModel_length, List.length_append]
  simp only [create_subset_dataset, List.length_take, List.length_drop,
    hlen, if_pos h]
  refine ⟨by omega, by omega, by omega⟩

/-- Witness for `subset_clamping`: two available items, three
requested. -/
theorem subset_clamping_witness :
    sampleDataset.calibration.length + sampleDataset.test.length < 2 + 1
    ∧ ((create_subset_dataset 42 sampleDataset 2 1).calibration_samples
        + (create_subset_dataset 42 sampleDataset 2 1).test_samples
      = sampleDataset.calibration.length + sampleDataset.test.length
    ∧ (create_subset_dataset 42 sampleDataset 2 1).calibration_samples
      = min 2 (sampleDataset.calibration.length + sampleDataset.test.length)
    ∧ (create_subset_dataset 42 sampleDataset 2 1).test_samples
      = min 1 (sampleDataset.calibration.length + sampleDataset.test.length
          - min 2 (sampleDataset.calibration.length
              + sampleDataset.test.length))) :=
  ⟨by decide, subset_clamping 42 sampleDataset 2 1 (by decide)⟩

/-- Claim C7: in the Sampler's output document the ids are exactly
`1 .. (calibration_samples + test_samples)` assigned sequentially across
calibration followed by test, and every reused item keeps every field
other than `id` unchanged (each output item agrees with some input item
on all fields except `id`). -/
theorem subset_renumbering_and_frame (seed : Nat) (d : MCQADataset)
    (calib_size test_size : Nat) :
    ((create_subset_dataset seed d calib_size test_size).calibration
        ++ (create_subset_dataset seed d calib_size test_size).test).map
          (fun x => x.id)
      = List.range' 1
          ((create_subset_dataset seed d calib_size test_size).calibration_samples
            + (create_subset_dataset seed d calib_size test_size).test_samples)
    ∧ ∀ x ∈ (create_subset_dataset seed d calib_size test_size).calibration
        ++ (create_subset_dataset seed d calib_size test_size).test,
        ∃ y ∈ d.calibration ++ d.test, x.question = y.question
          ∧ x.correct_answer = y.correct_answer ∧ x.options = y.options
          ∧ x.context = y.context ∧ x.claim = y.claim
          ∧ x.search_results = y.search_results := by
  constructor
  · simp only [create_subset_dataset]
    rw [List.take_append_drop, renumberFrom_map_id, List.length_append]
  · simp only [create_subset_dataset]
    intro x hx
    rw [List.take_append_drop] at hx
    obtain ⟨y, hy, hf⟩ := renumberFrom_mem 1 _ x hx
    rcases List.mem_append.mp hy with hy | hy
    · exact ⟨y, (shuffleModel_perm seed (d.calibration ++ d.test)).subset
        (List.mem_of_mem_take hy), hf⟩
    · exact ⟨y, (shuffleModel_perm seed (d.calibration ++ d.test)).subset
        (List.mem_of_mem_drop (List.mem_of_mem_take hy)), hf⟩

/-- Witness for `subset_renumbering_and_frame`: the first output item of
a concrete run agrees with an input item on every field but `id`. -/
theorem subset_renumbering_witness :
    ∃ y ∈ sampleDataset.calibration ++ sampleDataset.test,
      (sampleItem 1).question = y.question
      ∧ (sampleItem 1).correct_answer = y.correct_answer
      ∧ (sampleItem 1).options = y.options
      ∧ (sampleItem 1).context = y.context
      ∧ (sampleItem 1).claim = y.claim
      ∧ (sampleItem 1).search_results = y.search_results :=
  (subset_renumbering_and_frame 42 sampleDataset 1 1).2 (sampleItem 1)
    (by decide)

/-- Claim C8: the Sampler is deterministic — two independent runs with
the same seed, input, and sizes produce identical calibration and test
buckets, in membership and order. -/
theorem subset_deterministic (seed : Nat) (d : MCQADataset)
    (calib_size test_size : Nat) (r1 r2 : MCQADataset)
    (h1 : r1 = create_subset_dataset seed d calib_size test_size)
    (h2 : r2 = create_subset_dataset seed d calib_size test_size) :
    r1.calibration = r2.calibration ∧ r1.test = r2.test := by
  subst h1
  subst h2
  exact ⟨rfl, rfl⟩

/-- Witness for `subset_deterministic` at a concrete run. -/
theorem subset_deterministic_witness :
    (create_subset_dataset 42 sampleDataset 1 1).calibration
      = (create_subset_dataset 42 sampleDataset 1 1).calibration
    ∧ (create_subset_dataset 42 sampleDataset 1 1).test
      = (create_subset_dataset 42 sampleDataset 1 1).test :=
  subset_deterministic 42 sampleDataset 1 1 _ _ rfl rfl

